import Mathlib

/-!
Verification of the mussel-aggregation individual-based model.

The model is a density-dependent random walk of N agents in a square
domain of side Length. Per timestep the code computes the pairwise
Euclidean distance matrix, derives per-agent neighbor counts within two
radii D1 and D2, normalizes them to local densities, maps the densities
to a step-size scale parameter Beta, draws random step sizes and
headings, updates positions and applies a single-pass boundary wrap.
Floating-point arithmetic is idealized as real arithmetic; the pseudo
random stream produced by the seeded generator is modelled as an
explicit input stream of real draws, so a fixed seed corresponds to a
fixed stream.
-/

namespace Mussel

open Finset

/-- Pairwise Euclidean distance matrix, from the source routine dist:
dx and dy are the coordinate difference matrices and the result is the
entrywise square root of dx^2 + dy^2. -/
noncomputable def dist {n : ℕ} (x y : Fin n → ℝ) (i j : Fin n) : ℝ :=
  Real.sqrt ((x i - x j) ^ 2 + (y i - y j) ^ 2)

/-- The identity-like matrix built by np.fill_diagonal(Diagonal, 1). -/
def Diagonal {n : ℕ} (i j : Fin n) : ℝ :=
  if i = j then 1 else 0

/-- Per-agent neighbor score within radius D, from the source line
Nr_In_Dist1 = (Distance < D1)*1.0 - Diagonal followed by .sum(axis=0):
entry i is the column sum over j of the indicator that Distance[j,i]
is strictly below D, minus the diagonal matrix. -/
noncomputable def nrInDist {n : ℕ} (x y : Fin n → ℝ) (D : ℝ) (i : Fin n) : ℝ :=
  ∑ j, ((if dist x y j i < D then (1 : ℝ) else 0) - Diagonal j i)

/-- Local density of the neighborhood of radius D, from the source line
Density_In_Dist1 = Nr_In_Dist1.sum(axis=0)/(D1**2*np.pi). -/
noncomputable def densityInDist {n : ℕ} (x y : Fin n → ℝ) (D : ℝ) (i : Fin n) : ℝ :=
  nrInDist x y D i / (D ^ 2 * Real.pi)

/-- Step-size scale parameter, from the source line
Beta = 1/(np.maximum(0.001,P1*Density_In_Dist1+P2*Density_In_Dist2)+P3). -/
noncomputable def betaFn {n : ℕ} (x y : Fin n → ℝ) (P1 P2 P3 D1 D2 : ℝ) (i : Fin n) : ℝ :=
  1 / (max 0.001 (P1 * densityInDist x y D1 i + P2 * densityInDist x y D2 i) + P3)

/-- Single-pass boundary correction for one coordinate, from the source
line X = X + Length*(X < 0) - Length*(X > Length), with the numpy
booleans written as indicator values. -/
noncomputable def boundary (L x : ℝ) : ℝ :=
  x + L * (if x < 0 then 1 else 0) - L * (if L < x then 1 else 0)

/-- One timestep of the simulation loop: compute Beta from the current
positions, draw the exponential step sizes from the uniform vector u1
and the headings from the uniform vector u2, move each agent and apply
the boundary correction to both coordinates. -/
noncomputable def musselStep {n : ℕ} (L P1 P2 P3 D1 D2 : ℝ) (u1 u2 : Fin n → ℝ)
    (x y : Fin n → ℝ) : (Fin n → ℝ) × (Fin n → ℝ) :=
  let Beta := fun i => betaFn x y P1 P2 P3 D1 D2 i
  let Stepsize := fun i => - Beta i * Real.log (u1 i)
  let Angle := fun i => u2 i * 360.0
  let Xnew := fun i => x i + Real.sin (Angle i / 180.0 * Real.pi) * Stepsize i
  let Ynew := fun i => y i + Real.cos (Angle i / 180.0 * Real.pi) * Stepsize i
  (fun i => boundary L (Xnew i), fun i => boundary L (Ynew i))

/-- Configuration of a run: the notebook constants N, Length, EndTime,
P1, P2, P3, D1, D2. -/
structure Config where
  N : ℕ
  Length : ℝ
  EndTime : ℕ
  P1 : ℝ
  P2 : ℝ
  P3 : ℝ
  D1 : ℝ
  D2 : ℝ

/-- The simulation loop from positions x, y onward, consuming two fresh
uniform vectors per timestep from the stream u and recording the
post-correction positions of each step, newest last.  The first
argument after the positions is the current timestep index, the second
the number of steps still to run. -/
noncomputable def stepsFrom (cfg : Config) (u : ℕ → Fin cfg.N → ℝ) :
    (Fin cfg.N → ℝ) → (Fin cfg.N → ℝ) → ℕ → ℕ →
      List ((Fin cfg.N → ℝ) × (Fin cfg.N → ℝ))
  | _, _, _, 0 => []
  | x, y, t, Nat.succ k =>
    let p := musselStep cfg.Length cfg.P1 cfg.P2 cfg.P3 cfg.D1 cfg.D2
      (u (2 * t)) (u (2 * t + 1)) x y
    p :: stepsFrom cfg u p.1 p.2 (t + 1) k

/-- Initial x positions, from X = np.random.rand(N)*Length: the first
uniform vector of the stream scaled to the domain. -/
noncomputable def initX (cfg : Config) (u : ℕ → Fin cfg.N → ℝ) : Fin cfg.N → ℝ :=
  fun i => u 0 i * cfg.Length

/-- Initial y positions, from Y = np.random.rand(N)*Length. -/
noncomputable def initY (cfg : Config) (u : ℕ → Fin cfg.N → ℝ) : Fin cfg.N → ℝ :=
  fun i => u 1 i * cfg.Length

/-- A whole run: random initialization followed by EndTime timesteps,
returning the recorded position history Xs, Ys as a list of snapshots
of length EndTime. -/
noncomputable def simulate (cfg : Config) (u : ℕ → Fin cfg.N → ℝ) :
    List ((Fin cfg.N → ℝ) × (Fin cfg.N → ℝ)) :=
  stepsFrom cfg (fun t => u (t + 2)) (initX cfg u) (initY cfg u) 0 cfg.EndTime

/-- The distance of an agent to itself is zero. -/
lemma dist_self {n : ℕ} (x y : Fin n → ℝ) (i : Fin n) : dist x y i i = 0 := by
  simp [dist]

/-- The simulation loop always runs the requested number of steps. -/
lemma stepsFrom_length (cfg : Config) (u : ℕ → Fin cfg.N → ℝ)
    (x y : Fin cfg.N → ℝ) (t k : ℕ) :
    (stepsFrom cfg u x y t k).length = k := by
  induction k generalizing x y t with
  | zero => simp [stepsFrom]
  | succ k ih => simp [stepsFrom, ih]

/-- Closed-form of the boundary correction for a nonnegative domain
side: below 0 it adds L, above L it subtracts L, otherwise it is the
identity. -/
lemma boundary_cases (L x : ℝ) (hL : 0 ≤ L) :
    boundary L x = if x < 0 then x + L else if L < x then x - L else x := by
  unfold boundary
  by_cases h0 : x < 0
  · have h1 : ¬ L < x := by linarith
    simp [h0, h1]
  · by_cases h1 : L < x
    · simp [h0, h1]
    · simp [h0, h1]

/-- C5: the boundary correction is a pure function of one coordinate
and Length mapping x to x + Length when x is negative, to x - Length
when x exceeds Length, and leaving x unchanged otherwise; for
Length = 50 it maps -0.5 to 49.5 and 55 to 5. -/
theorem C5_boundary_pure (L x : ℝ) (hL : 0 < L) :
    boundary L x = (if x < 0 then x + L else if L < x then x - L else x) ∧
      boundary 50 (-0.5) = 49.5 ∧ boundary 50 55 = 5 := by
  refine ⟨boundary_cases L x hL.le, ?_, ?_⟩
  · rw [boundary_cases 50 (-0.5) (by norm_num)]
    norm_num
  · rw [boundary_cases 50 55 (by norm_num)]
    norm_num

/-- C5 witness at Length = 50 and x = -0.5. -/
theorem C5_boundary_pure_witness :
    boundary 50 (-0.5) =
        (if (-0.5 : ℝ) < 0 then -0.5 + 50 else if (50 : ℝ) < -0.5 then -0.5 - 50 else -0.5) ∧
      boundary 50 (-0.5) = 49.5 ∧ boundary 50 55 = 5 :=
  C5_boundary_pure 50 (-0.5) (by norm_num)

/-- C4 counterexample: with Length = 50, a previous coordinate 25 in
the half-open interval and a displacement 25 of magnitude at most
Length, the corrected coordinate is exactly 50, which is not in the
half-open interval since it is not below 50. -/
theorem C4_counterexample :
    boundary 50 (25 + 25) = 50 ∧ ¬ boundary 50 (25 + 25) < 50 := by
  have h : boundary 50 (25 + 25) = 50 := by
    rw [boundary_cases 50 (25 + 25) (by norm_num)]
    norm_num
  exact ⟨h, by rw [h]; exact lt_irrefl _⟩

/-- C4 amended: for every domain side Length above 0, previous
coordinate in the closed interval from 0 to Length and displacement of
magnitude at most Length, the corrected coordinate lies in the closed
interval from 0 to Length. -/
theorem C4_boundary_closed (L prev d : ℝ) (hL : 0 < L)
    (h0 : 0 ≤ prev) (h1 : prev ≤ L) (hd : |d| ≤ L) :
    0 ≤ boundary L (prev + d) ∧ boundary L (prev + d) ≤ L := by
  have hdl : -L ≤ d := neg_le_of_abs_le hd
  have hdu : d ≤ L := le_of_abs_le hd
  rw [boundary_cases L (prev + d) hL.le]
  by_cases hneg : prev + d < 0
  · simp only [if_pos hneg]
    constructor <;> linarith
  · by_cases hbig : L < prev + d
    · simp only [if_neg hneg, if_pos hbig]
      constructor <;> linarith
    · simp only [if_neg hneg, if_neg hbig]
      constructor <;> linarith

/-- C4 amended witness at Length = 50, previous coordinate 25,
displacement 25. -/
theorem C4_boundary_closed_witness :
    0 ≤ boundary 50 (25 + 25) ∧ boundary 50 (25 + 25) ≤ 50 :=
  C4_boundary_closed 50 25 25 (by norm_num) (by norm_num) (by norm_num) (by norm_num)

/-- C9: the boundary correction uses strict comparisons, so 0 and
Length are fixed points; any pre-correction coordinate between -Length
and twice Length is corrected into the closed interval from 0 to
Length, and the corrected value Length itself falls outside the
half-open interval. -/
theorem C9_boundary_fixed_points (L x : ℝ) (hL : 0 < L) :
    boundary L 0 = 0 ∧ boundary L L = L ∧ ¬ boundary L L < L ∧
      (-L ≤ x → x ≤ 2 * L → 0 ≤ boundary L x ∧ boundary L x ≤ L) := by
  have h0 : boundary L 0 = 0 := by
    rw [boundary_cases L 0 hL.le]
    simp [hL.not_lt]
  have hLfix : boundary L L = L := by
    rw [boundary_cases L L hL.le]
    simp [(by linarith : ¬ (L : ℝ) < 0)]
  refine ⟨h0, hLfix, by rw [hLfix]; exact lt_irrefl _, fun hlo hhi => ?_⟩
  rw [boundary_cases L x hL.le]
  by_cases hneg : x < 0
  · simp only [if_pos hneg]
    constructor <;> linarith
  · by_cases hbig : L < x
    · simp only [if_neg hneg, if_pos hbig]
      constructor <;> linarith
    · simp only [if_neg hneg, if_neg hbig]
      constructor <;> linarith

/-- C9 witness at Length = 50 and pre-correction coordinate 75. -/
theorem C9_boundary_fixed_points_witness :
    boundary 50 0 = 0 ∧ boundary 50 50 = 50 ∧ ¬ boundary 50 50 < 50 ∧
      (-(50 : ℝ) ≤ 75 → (75 : ℝ) ≤ 2 * 50 → 0 ≤ boundary 50 75 ∧ boundary 50 75 ≤ 50) :=
  C9_boundary_fixed_points 50 75 (by norm_num)

/-- Entries of the distance matrix are nonnegative. -/
lemma dist_nonneg {n : ℕ} (x y : Fin n → ℝ) (i j : Fin n) : 0 ≤ dist x y i j :=
  Real.sqrt_nonneg _

open Classical in
/-- Number of other agents strictly within radius D of agent i, stated
as the specification describes it: agents j distinct from i whose
Euclidean distance to i is strictly below D. -/
noncomputable def neighborCount {n : ℕ} (x y : Fin n → ℝ) (D : ℝ) (i : Fin n) : ℕ :=
  (univ.filter fun j => j ≠ i ∧ dist x y j i < D).card

/-- For a positive radius the source neighbor score equals the
specification neighbor count: the zero self-distance satisfies the
strict comparison and is cancelled exactly by the diagonal
subtraction. -/
lemma nrInDist_eq_neighborCount {n : ℕ} (x y : Fin n → ℝ) {D : ℝ} (hD : 0 < D)
    (i : Fin n) : nrInDist x y D i = (neighborCount x y D i : ℝ) := by
  classical
  have hPi : dist x y i i < D := by rw [dist_self]; exact hD
  unfold nrInDist neighborCount
  have hterm : ∀ j : Fin n,
      ((if dist x y j i < D then (1 : ℝ) else 0) - Diagonal j i)
        = (if j ≠ i ∧ dist x y j i < D then (1 : ℝ) else 0) := by
    intro j
    by_cases hj : j = i
    · subst hj
      simp [Diagonal, hPi]
    · simp [Diagonal, hj]
  rw [Finset.sum_congr rfl fun j _ => hterm j, Finset.sum_boole]

/-- For a nonpositive radius no entry of the distance matrix satisfies
the strict comparison, so the diagonal subtraction drives every agent
score to minus one. -/
lemma nrInDist_of_nonpos {n : ℕ} (x y : Fin n → ℝ) {D : ℝ} (hD : D ≤ 0)
    (i : Fin n) : nrInDist x y D i = -1 := by
  unfold nrInDist
  rw [Finset.sum_sub_distrib]
  have h1 : (∑ j, if dist x y j i < D then (1 : ℝ) else 0) = 0 :=
    Finset.sum_eq_zero fun j _ => by
      simp [not_lt.mpr (hD.trans (dist_nonneg x y j i))]
  have h2 : (∑ j, Diagonal j i) = 1 := by
    simp [Diagonal]
  rw [h1, h2]
  norm_num

/-- C6: for a positive radius each local density equals the number of
other agents strictly within the radius, the agent itself never
counted, divided by the disk area pi times the radius squared. -/
theorem C6_density_counts {n : ℕ} (x y : Fin n → ℝ) (D : ℝ) (hD : 0 < D)
    (i : Fin n) :
    nrInDist x y D i = (neighborCount x y D i : ℝ) ∧
      densityInDist x y D i = (neighborCount x y D i : ℝ) / (Real.pi * D ^ 2) := by
  refine ⟨nrInDist_eq_neighborCount x y hD i, ?_⟩
  unfold densityInDist
  rw [nrInDist_eq_neighborCount x y hD i, mul_comm]

/-- A concrete single-agent population with the agent at the origin. -/
def posOne : Fin 1 → ℝ := fun _ => 0

/-- C6 witness at a single agent at the origin with radius 2. -/
theorem C6_density_counts_witness :
    (0 : ℝ) < 2 ∧
      (nrInDist posOne posOne 2 0 = (neighborCount posOne posOne 2 0 : ℝ) ∧
        densityInDist posOne posOne 2 0 =
          (neighborCount posOne posOne 2 0 : ℝ) / (Real.pi * 2 ^ 2)) :=
  ⟨by norm_num, C6_density_counts posOne posOne 2 (by norm_num) 0⟩

/-- C10: for a nonpositive radius the per-agent neighbor score is
minus one for every agent, the resulting density is minus one over the
disk area, this density is negative whenever the radius is nonzero,
and the computation proceeds without any error path. -/
theorem C10_nonpositive_radius {n : ℕ} (x y : Fin n → ℝ) (D : ℝ) (hD : D ≤ 0)
    (i : Fin n) :
    nrInDist x y D i = -1 ∧
      densityInDist x y D i = -1 / (D ^ 2 * Real.pi) ∧
      (D ≠ 0 → densityInDist x y D i < 0) := by
  have h := nrInDist_of_nonpos x y hD i
  refine ⟨h, ?_, ?_⟩
  · unfold densityInDist
    rw [h]
  · intro hne
    unfold densityInDist
    rw [h]
    apply div_neg_of_neg_of_pos
    · norm_num
    · exact mul_pos (pow_two_pos_of_ne_zero hne) Real.pi_pos

/-- C10 witness at a single agent with radius -1. -/
theorem C10_nonpositive_radius_witness :
    (-1 : ℝ) ≤ 0 ∧
      (nrInDist posOne posOne (-1) 0 = -1 ∧
        densityInDist posOne posOne (-1) 0 = -1 / ((-1 : ℝ) ^ 2 * Real.pi) ∧
        ((-1 : ℝ) ≠ 0 → densityInDist posOne posOne (-1) 0 < 0)) :=
  ⟨by norm_num, C10_nonpositive_radius posOne posOne (-1) (by norm_num) 0⟩

/-- With a single agent and a positive radius the neighbor score is
zero: the sole indicator entry comes from the zero self-distance and
is cancelled by the diagonal subtraction. -/
lemma nrInDist_single (x y : Fin 1 → ℝ) {D : ℝ} (hD : 0 < D) (i : Fin 1) :
    nrInDist x y D i = 0 := by
  have hi : i = 0 := Subsingleton.elim i 0
  subst hi
  unfold nrInDist
  rw [Fin.sum_univ_one]
  have h : dist x y 0 0 < D := by rw [dist_self]; exact hD
  simp [Diagonal, h]

/-- With a single agent and a positive radius the local density is
zero. -/
lemma densityInDist_single (x y : Fin 1 → ℝ) {D : ℝ} (hD : 0 < D) (i : Fin 1) :
    densityInDist x y D i = 0 := by
  unfold densityInDist
  rw [nrInDist_single x y hD i, zero_div]

/-- With a single agent and positive radii the scale parameter is the
reciprocal of 0.001 plus P3: the floor applies to the zero density
score before P3 is added. -/
lemma betaFn_single (x y : Fin 1 → ℝ) (P1 P2 P3 : ℝ) {D1 D2 : ℝ}
    (h1 : 0 < D1) (h2 : 0 < D2) (i : Fin 1) :
    betaFn x y P1 P2 P3 D1 D2 i = 1 / (0.001 + P3) := by
  unfold betaFn
  rw [densityInDist_single x y h1 i, densityInDist_single x y h2 i]
  rw [mul_zero, mul_zero, add_zero, max_eq_left (by norm_num : (0 : ℝ) ≤ 0.001)]

/-- The scale parameter as claim C1 states it: the reciprocal of the
full affine score including P3, floored at 0.001. -/
noncomputable def betaClaimFloorAll {n : ℕ} (x y : Fin n → ℝ) (P1 P2 P3 D1 D2 : ℝ)
    (i : Fin n) : ℝ :=
  1 / max 0.001 (P1 * densityInDist x y D1 i + P2 * densityInDist x y D2 i + P3)

/-- The scale parameter as the code computes it, restated from the
amended claim: only the density score is floored at 0.001, and P3 is
added after the floor, before taking the reciprocal. -/
noncomputable def betaClaimFloorScore {n : ℕ} (x y : Fin n → ℝ) (P1 P2 P3 D1 D2 : ℝ)
    (i : Fin n) : ℝ :=
  1 / (max 0.001 (P1 * densityInDist x y D1 i + P2 * densityInDist x y D2 i) + P3)

/-- C1 counterexample: for a single agent at the origin with the
notebook coefficients P1 = 100, P2 = -80, P3 = 3 and radii 2 and 6,
the code computes Beta = 1/3.001 while the claimed formula gives 1/3,
so they differ. -/
theorem C1_counterexample :
    betaFn posOne posOne 100 (-80) 3 2 6 0 ≠
      betaClaimFloorAll posOne posOne 100 (-80) 3 2 6 0 := by
  rw [betaFn_single posOne posOne 100 (-80) 3 (by norm_num) (by norm_num) 0]
  unfold betaClaimFloorAll
  rw [densityInDist_single posOne posOne (by norm_num : (0 : ℝ) < 2) 0,
    densityInDist_single posOne posOne (by norm_num : (0 : ℝ) < 6) 0]
  rw [mul_zero, mul_zero, zero_add, zero_add,
    max_eq_right (by norm_num : (0.001 : ℝ) ≤ 3)]
  norm_num

/-- C1 amended: at every timestep and for every agent Beta equals the
reciprocal of max(0.001, P1 density1 + P2 density2) plus P3: the floor
is applied to the density score only, before adding P3. -/
theorem C1_beta_formula {n : ℕ} (x y : Fin n → ℝ) (P1 P2 P3 D1 D2 : ℝ)
    (i : Fin n) :
    betaFn x y P1 P2 P3 D1 D2 i = betaClaimFloorScore x y P1 P2 P3 D1 D2 i := rfl

/-- C2 counterexample: for a single agent at the origin with the
notebook parameters both density terms are zero, yet Beta differs from
1/P3 = 1/3 because the Beta formula floors the zero score at 0.001
before adding P3. -/
theorem C2_counterexample :
    densityInDist posOne posOne 2 0 = 0 ∧ densityInDist posOne posOne 6 0 = 0 ∧
      betaFn posOne posOne 100 (-80) 3 2 6 0 ≠ 1 / 3 := by
  refine ⟨densityInDist_single posOne posOne (by norm_num) 0,
    densityInDist_single posOne posOne (by norm_num) 0, ?_⟩
  rw [betaFn_single posOne posOne 100 (-80) 3 (by norm_num) (by norm_num) 0]
  norm_num

/-- C2 amended: with a single agent and positive radii both local
density terms are zero at every timestep and Beta equals
1/(0.001 + P3) at every timestep. -/
theorem C2_single_agent (x y : Fin 1 → ℝ) (P1 P2 P3 D1 D2 : ℝ)
    (h1 : 0 < D1) (h2 : 0 < D2) (i : Fin 1) :
    densityInDist x y D1 i = 0 ∧ densityInDist x y D2 i = 0 ∧
      betaFn x y P1 P2 P3 D1 D2 i = 1 / (0.001 + P3) :=
  ⟨densityInDist_single x y h1 i, densityInDist_single x y h2 i,
    betaFn_single x y P1 P2 P3 h1 h2 i⟩

/-- C2 amended witness at a single agent at the origin with the
notebook parameters. -/
theorem C2_single_agent_witness :
    (0 : ℝ) < 2 ∧ (0 : ℝ) < 6 ∧
      (densityInDist posOne posOne 2 0 = 0 ∧ densityInDist posOne posOne 6 0 = 0 ∧
        betaFn posOne posOne 100 (-80) 3 2 6 0 = 1 / (0.001 + 3)) :=
  ⟨by norm_num, by norm_num,
    C2_single_agent posOne posOne 100 (-80) 3 2 6 (by norm_num) (by norm_num) 0⟩

/-- Validity of a configuration as the specification words it: at
least one agent, a positive domain side and positive radii. -/
def validConfig (cfg : Config) : Prop :=
  1 ≤ cfg.N ∧ 0 < cfg.Length ∧ 0 < cfg.D1 ∧ 0 < cfg.D2

/-- A concrete invalid configuration: one agent, domain side 50, three
timesteps, notebook coefficients, but radius D1 = -1. -/
def cfgBad : Config :=
  { N := 1, Length := 50, EndTime := 3, P1 := 100, P2 := -80, P3 := 3,
    D1 := -1, D2 := 6 }

/-- A constant uniform stream with every draw equal to one half. -/
noncomputable def uHalf : ℕ → Fin cfgBad.N → ℝ := fun _ _ => 1 / 2

/-- C3 counterexample: on an invalid configuration with D1 = -1 the
engine reports nothing: the simulation loop still runs all EndTime
steps, and the neighbor score of the initial state is the silently
computed value -1 rather than an error. -/
theorem C3_counterexample :
    ¬ validConfig cfgBad ∧
      (simulate cfgBad uHalf).length = cfgBad.EndTime ∧
      nrInDist (initX cfgBad uHalf) (initY cfgBad uHalf) cfgBad.D1
        ⟨0, Nat.one_pos⟩ = -1 := by
  refine ⟨?_, stepsFrom_length cfgBad _ _ _ 0 cfgBad.EndTime, ?_⟩
  · intro h
    have := h.2.2.1
    norm_num [cfgBad] at this
  · have hD : cfgBad.D1 ≤ 0 := by norm_num [cfgBad]
    exact nrInDist_of_nonpos _ _ hD _

/-- C3 amended: the engine performs no configuration validation: for
every configuration, valid or not, the simulation loop runs the full
EndTime steps and returns a complete position history. -/
theorem C3_no_validation (cfg : Config) (u : ℕ → Fin cfg.N → ℝ) :
    (simulate cfg u).length = cfg.EndTime :=
  stepsFrom_length cfg _ _ _ 0 cfg.EndTime

/-- The notebook configuration: 2000 agents, domain side 50, 300
timesteps, P1 = 100, P2 = -80, P3 = 3, D1 = 2, D2 = 6. -/
def cfgNotebook : Config :=
  { N := 2000, Length := 50, EndTime := 300, P1 := 100, P2 := -80, P3 := 3,
    D1 := 2, D2 := 6 }

/-- A constant uniform stream for the notebook configuration. -/
noncomputable def uNotebook : ℕ → Fin cfgNotebook.N → ℝ := fun _ _ => 1 / 2

/-- C7: the whole run is a deterministic function of the configuration
and the random stream: two runs with the same configuration and equal
streams produce identical position histories. -/
theorem C7_deterministic (cfg : Config) (u v : ℕ → Fin cfg.N → ℝ) (h : u = v) :
    simulate cfg u = simulate cfg v := by
  rw [h]

/-- C7 witness at the notebook configuration with a concrete stream. -/
theorem C7_deterministic_witness :
    uNotebook = uNotebook ∧
      simulate cfgNotebook uNotebook = simulate cfgNotebook uNotebook :=
  ⟨rfl, C7_deterministic cfgNotebook uNotebook uNotebook rfl⟩

/-- C8: for every pair of equal-length position arrays the matrix
returned by dist is symmetric and has zero diagonal. -/
theorem C8_dist_symm_diag {n : ℕ} (x y : Fin n → ℝ) (i j : Fin n) :
    dist x y i j = dist x y j i ∧ dist x y i i = 0 := by
  constructor
  · unfold dist
    ring_nf
  · exact dist_self x y i

end Mussel
